import Mathlib

/-
  Verification development for the `formmap` Go package.

  The embedding models the reflective struct-to-form mapper
  (`Mapper.MapToForm` and its helpers) over a deep value model of the
  Go values the mapper traverses: strings, signed integers, booleans,
  structs, slices and pointers.  Scalar kinds outside this universe
  (floats, unsigned integers, `time.Time`, `time.Duration`, interfaces)
  are not part of the modelled value grammar; consequently `NewMapper`
  registers only the built-in converters whose key types lie inside the
  grammar (`int`, `int64`, `bool`).  No claim under verification depends
  on the omitted kinds.

  Go mutation through pointers is translated to explicit state passing:
  every mapping operation returns the updated form value together with
  an `Option String` error (the source signals errors with Go `error`
  values carrying a message string).  The source never writes through
  a domain-derived `reflect.Value` (every `Set`/`SetString` call targets
  a form-derived value), so the embedding takes the domain value as a
  read-only input.

  A nil slice and an empty slice are identified in the model (both are
  the empty element sequence): the mapper only observes slices through
  `Len`, `Index`, `MakeSlice` and `Set`, on which the two agree, except
  for `reflect.Value.IsZero` inside `convertValue`, where the model
  treats length zero as the zero slice.
-/

set_option autoImplicit false

namespace Formmap

/-- Reflection kinds of the modelled Go values (`reflect.Kind`). -/
inductive GoKind where
  | str
  | int
  | bool
  | strct
  | slice
  | ptr
deriving DecidableEq, Repr

mutual
/-- Model of a Go type as seen by `reflect.Type`.  Scalar and struct
types carry their `Name()`; slice and pointer types are unnamed type
literals (their `Name()` is the empty string). -/
inductive GoTy where
  | tstr (name : String)
  | tint (name : String)
  | tbool (name : String)
  | tstruct (name : String) (fields : TyFields)
  | tslice (elem : GoTy)
  | tptr (elem : GoTy)

/-- Declared fields of a struct type, in declaration order. -/
inductive TyFields where
  | nil
  | cons (name : String) (ty : GoTy) (rest : TyFields)
end

mutual
/-- Model of a Go value as seen by `reflect.Value`.  Since the grammar
has no interface kinds, the dynamic type of a field always coincides
with its declared type, so values carry their type information. -/
inductive GoVal where
  | vstr (tyName : String) (s : String)
  | vint (tyName : String) (i : Int)
  | vbool (tyName : String) (b : Bool)
  | vstruct (tyName : String) (fields : Fields)
  | vslice (elemTy : GoTy) (elems : Elems)
  | vptr (elemTy : GoTy) (v : PtrVal)

/-- Fields of a struct value, in declaration order. -/
inductive Fields where
  | nil
  | cons (name : String) (v : GoVal) (rest : Fields)

/-- Elements of a slice value, in index order. -/
inductive Elems where
  | nil
  | cons (v : GoVal) (rest : Elems)

/-- A pointer value: nil or pointing at a value. -/
inductive PtrVal where
  | null
  | box (v : GoVal)
end

/-- The `reflect.Kind` of a modelled value. -/
def GoVal.kind : GoVal → GoKind
  | .vstr _ _ => .str
  | .vint _ _ => .int
  | .vbool _ _ => .bool
  | .vstruct _ _ => .strct
  | .vslice _ _ => .slice
  | .vptr _ _ => .ptr

/-- `reflect.Type.Name()` of a type: the declared name for named types,
empty for slice and pointer type literals. -/
def GoTy.name : GoTy → String
  | .tstr n => n
  | .tint n => n
  | .tbool n => n
  | .tstruct n _ => n
  | .tslice _ => ""
  | .tptr _ => ""

/-- `v.Type().Name()` of a value. -/
def GoVal.tyName : GoVal → String
  | .vstr n _ => n
  | .vint n _ => n
  | .vbool n _ => n
  | .vstruct n _ => n
  | .vslice _ _ => ""
  | .vptr _ _ => ""

mutual
/-- `reflect.Value.Type()`: the type of a modelled value. -/
def GoVal.tyOf : GoVal → GoTy
  | .vstr n _ => .tstr n
  | .vint n _ => .tint n
  | .vbool n _ => .tbool n
  | .vstruct n fs => .tstruct n (Fields.tyOf fs)
  | .vslice e _ => .tslice e
  | .vptr e _ => .tptr e

/-- Types of the fields of a struct value. -/
def Fields.tyOf : Fields → TyFields
  | .nil => .nil
  | .cons n v rest => .cons n (GoVal.tyOf v) (Fields.tyOf rest)
end

/-- Number of fields of a struct value (`NumField`). -/
def Fields.length : Fields → Nat
  | .nil => 0
  | .cons _ _ rest => 1 + Fields.length rest

/-- Number of elements of a slice value (`Len`). -/
def Elems.length : Elems → Nat
  | .nil => 0
  | .cons _ rest => 1 + Elems.length rest

/-- `FieldByName`: the first field with the given name, if any. -/
def Fields.lookup : Fields → String → Option GoVal
  | .nil, _ => none
  | .cons n v rest, key => if n = key then some v else Fields.lookup rest key

/-- Writing a struct field through `FieldByName(...).Set...`: replaces
the first field with the given name, leaves the rest unchanged. -/
def Fields.set : Fields → String → GoVal → Fields
  | .nil, _, _ => .nil
  | .cons n v rest, key, w => if n = key then .cons n w rest else .cons n v (Fields.set rest key w)

/-- How many fields of a struct carry the given name.  In Go a struct
cannot declare the same field name twice, so faithful instances have
count at most one; theorems state this as an explicit hypothesis. -/
def Fields.countName : Fields → String → Nat
  | .nil, _ => 0
  | .cons n _ rest, key => (if n = key then 1 else 0) + Fields.countName rest key

/-- Concatenation of field sequences (used to split a struct's field
list around a distinguished field in theorem statements). -/
def Fields.append : Fields → Fields → Fields
  | .nil, l2 => l2
  | .cons n v rest, l2 => .cons n v (Fields.append rest l2)

mutual
/-- Structural equality of modelled types; Go type identity.  Two
modelled types are identical exactly when this returns `true` (named
types in a single package are identified by name and definition). -/
def GoTy.beq : GoTy → GoTy → Bool
  | .tstr a, .tstr b => a == b
  | .tint a, .tint b => a == b
  | .tbool a, .tbool b => a == b
  | .tstruct a fa, .tstruct b fb => a == b && TyFields.beq fa fb
  | .tslice a, .tslice b => GoTy.beq a b
  | .tptr a, .tptr b => GoTy.beq a b
  | _, _ => false

/-- Structural equality of declared field lists. -/
def TyFields.beq : TyFields → TyFields → Bool
  | .nil, .nil => true
  | .cons n t rest, .cons n' t' rest' => n == n' && GoTy.beq t t' && TyFields.beq rest rest'
  | _, _ => false
end

mutual
/-- `reflect.Zero(t)` / the zero value of a type (also what
`reflect.New(t).Elem()` holds). -/
def zeroVal : GoTy → GoVal
  | .tstr n => .vstr n ""
  | .tint n => .vint n 0
  | .tbool n => .vbool n false
  | .tstruct n fs => .vstruct n (zeroFields fs)
  | .tslice e => .vslice e .nil
  | .tptr e => .vptr e .null

/-- Zero values of a declared field list. -/
def zeroFields : TyFields → Fields
  | .nil => .nil
  | .cons n t rest => .cons n (zeroVal t) (zeroFields rest)
end

/-- `n` zero-valued slots of type `t`: the result of
`reflect.MakeSlice(slice of t, n, n)`.  `MakeSlice` zero-fills every
slot; the source's extra loop for struct element types re-writes those
slots with `reflect.New(elemType).Elem()`, which is again the zero
value, so the model needs no separate struct case. -/
def zeroElems : Nat → GoTy → Elems
  | 0, _ => .nil
  | n + 1, t => .cons (zeroVal t) (zeroElems n t)

mutual
/-- `reflect.Value.IsZero` on the modelled values: empty string, zero
integer, false boolean, struct with all fields zero, nil slice
(identified with the empty slice here), nil pointer. -/
def GoVal.isZero : GoVal → Bool
  | .vstr _ s => s == ""
  | .vint _ i => i == 0
  | .vbool _ b => b == false
  | .vstruct _ fs => Fields.allZero fs
  | .vslice _ es => match es with
      | .nil => true
      | .cons _ _ => false
  | .vptr _ .null => true
  | .vptr _ (.box _) => false

/-- All fields zero. -/
def Fields.allZero : Fields → Bool
  | .nil => true
  | .cons _ v rest => GoVal.isZero v && Fields.allZero rest
end

/-- `strconv.FormatInt(i, 10)` / `strconv.Itoa`: canonical base-10
rendering of a signed integer. -/
def formatInt (i : Int) : String := toString i

/-- `strconv.FormatBool`. -/
def formatBool (b : Bool) : String := cond b "true" "false"

mutual
/-- Best-effort model of `fmt.Sprint(v.Interface())`, the default
branch of `convertValue`: strings unquoted, numbers and booleans in
their canonical form, structs as space-separated fields in braces,
slices as space-separated elements in brackets, nil pointers as
`<nil>`.  (For a non-nil pointer to a non-struct value `fmt` prints a
machine address, which has no counterpart in the model; the `&`-form
used here is `fmt`'s rendering for struct pointers.  No claim under
verification depends on this branch.) -/
def goSprint : GoVal → String
  | .vstr _ s => s
  | .vint _ i => formatInt i
  | .vbool _ b => formatBool b
  | .vstruct _ fs => "\x7b" ++ goSprintFields fs ++ "\x7d"
  | .vslice _ es => "[" ++ goSprintElems es ++ "]"
  | .vptr _ .null => "<nil>"
  | .vptr _ (.box w) => "&" ++ goSprint w

/-- Struct fields rendered space-separated. -/
def goSprintFields : Fields → String
  | .nil => ""
  | .cons _ v .nil => goSprint v
  | .cons _ v rest => goSprint v ++ " " ++ goSprintFields rest

/-- Slice elements rendered space-separated. -/
def goSprintElems : Elems → String
  | .nil => ""
  | .cons v .nil => goSprint v
  | .cons v rest => goSprint v ++ " " ++ goSprintElems rest
end

/-- A single recorded validation failure (`ValidationField` in
`valerr.go`): the failed rule tag, its parameter and the original
field name. -/
structure ValidationField where
  Tag : String
  Param : String
  Field : String

/-- The tag-to-text table `ValidationField.Msg` from `valerr.go`. -/
def ValidationField.Msg (v : ValidationField) : String :=
  if v.Tag = "" then ""
  else
    match v.Tag with
    | "required" => "This field is required"
    | "email" => "Invalid email address"
    | "url" | "http_url" => "This field must be a valid URL"
    | "gte" => "Value must be at least " ++ v.Param
    | "lte" => "Value must be at most " ++ v.Param
    | "gt" => "Value must be greater than " ++ v.Param
    | "lt" => "Value must be less than " ++ v.Param
    | "min" => "Minimum length is " ++ v.Param
    | "max" => "Maximum length is " ++ v.Param
    | "len" => "Length must be exactly " ++ v.Param
    | "eq" => "Value must be equal to " ++ v.Param
    | "ne" => "Value must not be equal to " ++ v.Param
    | "eqfield" => "This field must match " ++ v.Param
    | "nefield" => "This field must not match " ++ v.Param
    | "not_blank" => "This field cannot be empty"
    | "alphanum" => "Only alphanumeric characters are allowed"
    | "alpha" => "Only alphabetic characters are allowed"
    | "numeric" => "Only numeric characters are allowed"
    | "alphanum_with_underscore" => "Only alphanumeric characters and underscores are allowed"
    | "mongodb" => "Invalid MongoDB ObjectID"
    | "uuid" => "Invalid UUID"
    | "oneof" => "Must be one of: " ++ v.Param.replace " " ", "
    | "gtcsfield" | "gtfield" => "Must be greater than " ++ v.Param
    | "ltcsfield" | "ltfield" => "Must be less than " ++ v.Param
    | "contains" => "Must contain \x27" ++ v.Param ++ "\x27"
    | "startswith" => "Must start with \x27" ++ v.Param ++ "\x27"
    | "endswith" => "Must end with \x27" ++ v.Param ++ "\x27"
    | _ =>
        "Validation failed on \x27" ++ v.Tag ++ "\x27 tag"
          ++ (if v.Param ≠ "" then " (param: " ++ v.Param ++ ")" else "")

/-- `ValidationErrors`: a map from field path to recorded failure.  The
Go map is modelled as an association list whose keys are unique; all
operations performed on it (`MsgFor` lookups) use the first binding. -/
def ValidationErrors := List (String × ValidationField)

/-- `ValidationErrors.MsgFor`: the display message for the failure
recorded at a path, or the empty string when none is recorded. -/
def ValidationErrors.MsgFor (e : ValidationErrors) (fieldName : String) : String :=
  match e with
  | [] => ""
  | (k, f) :: rest => if k = fieldName then f.Msg else ValidationErrors.MsgFor rest fieldName

/-- `ValidationError`: the error-lookup collaborator handed to the
mapper. -/
structure ValidationError where
  Errors : ValidationErrors

/-- `ValidationError.MsgFor` delegates to the underlying map. -/
def ValidationError.MsgFor (v : ValidationError) (fieldName : String) : String :=
  ValidationErrors.MsgFor v.Errors fieldName

/-- A registered value converter (`ValueConverter`). -/
def ValueConverter := GoVal → String

/-- A registered override (`FieldMapper`).  The Go override mutates the
form field through its `reflect.Value`; here it returns the new form
field value together with the optional failure message. -/
def FieldMapper := GoVal → GoVal → String → ValidationError → GoVal × Option String

/-- The mapper instance: the type-keyed Conversion Registry and the
path-keyed Override Registry.  The Go maps are modelled as association
lists with map-style insertion (`mapInsert`, `tyInsert`). -/
structure Mapper where
  converters : List (GoTy × ValueConverter)
  fieldMappers : List (String × FieldMapper)

/-- Map-style insertion into a string-keyed association list: replaces
the binding if the key is present, appends it otherwise. -/
def mapInsert {α : Type} : List (String × α) → String → α → List (String × α)
  | [], k, v => [(k, v)]
  | (k', v') :: rest, k, v =>
      if k' = k then (k, v) :: rest else (k', v') :: mapInsert rest k v

/-- Map-style insertion into the type-keyed converter list. -/
def tyInsert {α : Type} : List (GoTy × α) → GoTy → α → List (GoTy × α)
  | [], k, v => [(k, v)]
  | (k', v') :: rest, k, v =>
      if GoTy.beq k' k then (k, v) :: rest else (k', v') :: tyInsert rest k v

/-- Lookup in a string-keyed association list (Go map indexing). -/
def assocLookup {α : Type} : List (String × α) → String → Option α
  | [], _ => none
  | (k, v) :: rest, key => if k = key then some v else assocLookup rest key

/-- Lookup in the type-keyed converter list by type identity. -/
def lookupConverter : List (GoTy × ValueConverter) → GoTy → Option ValueConverter
  | [], _ => none
  | (k, c) :: rest, t => if GoTy.beq k t then some c else lookupConverter rest t

/-- `Mapper.RegisterConverter`. -/
def Mapper.RegisterConverter (m : Mapper) (t : GoTy) (converter : ValueConverter) : Mapper :=
  { m with converters := tyInsert m.converters t converter }

/-- `Mapper.RegisterFieldMapper`. -/
def Mapper.RegisterFieldMapper (m : Mapper) (fieldPath : String) (mapper : FieldMapper) : Mapper :=
  { m with fieldMappers := mapInsert m.fieldMappers fieldPath mapper }

/-- `NewMapper`: fresh registries with the built-in converters whose
key types fall inside the modelled value grammar (the source also
registers converters for `time.Duration`, `time.Time`, `float64` and
`float32`, whose kinds are outside the grammar).  The `int` converter
is `strconv.Itoa(int(v.Int()))` and the `int64` converter is
`strconv.FormatInt(v.Int(), 10)`; both render canonical base-10
digits.  The fallback arms for a converter applied to a value of an
unexpected kind are unreachable (in Go, `v.Int()` / `v.Bool()` on such
values would panic, and the registry only ever applies a converter to
a value of its own key type). -/
def NewMapper : Mapper where
  converters :=
    [ (.tint "int", fun v => match v with | .vint _ i => formatInt i | _ => "")
    , (.tint "int64", fun v => match v with | .vint _ i => formatInt i | _ => "")
    , (.tbool "bool", fun v => match v with | .vbool _ b => formatBool b | _ => "") ]
  fieldMappers := []

/-- `Mapper.convertValue`: the Conversion Registry's resolution ladder.
Mirrors the source: validity check (modelled values are always valid),
one pointer unwrap with nil short-circuit, zero suppression for
non-boolean kinds, registered converter by exact type, then built-in
defaults by kind (the interface arm of the source switch is outside
the modelled grammar). -/
def Mapper.convertValue (m : Mapper) (v : GoVal) : String :=
  let unwrapped : Option GoVal :=
    match v with
    | .vptr _ .null => none
    | .vptr _ (.box w) => some w
    | w => some w
  match unwrapped with
  | none => ""
  | some w =>
    if w.kind ≠ GoKind.bool ∧ w.isZero then ""
    else
      match lookupConverter m.converters w.tyOf with
      | some c => c w
      | none =>
        match w with
        | .vstr _ s => s
        | .vint _ i => formatInt i
        | .vbool _ b => formatBool b
        | w' => goSprint w'

/-- `Mapper.getFieldName`: the source returns the struct field's name
unchanged. -/
def getFieldName (fieldName : String) : String := fieldName

/-- `reflect.StructField.IsExported`: the field name starts with an
upper-case letter (the source's check via `unicode.IsUpper` on the
first rune; the model's names are ASCII). -/
def isExported (name : String) : Bool :=
  match name.toList with
  | [] => false
  | c :: _ => c.isUpper

/-- Path of a struct field under a parent path: the bare field name at
the root, `parent ++ "." ++ name` below it (from `mapStruct`). -/
def childPath (parentPath fieldName : String) : String :=
  if parentPath = "" then fieldName else parentPath ++ "." ++ fieldName

/-- Path of a slice element: `fmt.Sprintf("%s[%d]", fieldPath, i)`
(from `mapSlice`). -/
def indexPath (fieldPath : String) (i : Nat) : String :=
  fieldPath ++ "[" ++ toString i ++ "]"

/-- `SetString` on a field value: replaces a string payload.  On a
non-string kind Go would panic; unreachable for the `FormInputData`
shape this is applied to. -/
def setString (v : GoVal) (s : String) : GoVal :=
  match v with
  | .vstr n _ => .vstr n s
  | w => w

/-- `Mapper.mapFormInputData`: resolve the display string through the
Conversion Registry and the error string through `valErr.MsgFor`, then
write both into the leaf's `Value` and `Error` fields (each guarded by
`IsValid`/`CanSet`, modelled as presence of the field; `Value` and
`Error` are exported, hence settable).  The source always returns a nil
error here.  On a non-struct form value `FieldByName` would panic in
Go; that arm is unreachable behind the `"FormInputData"` type-name
guard, under which a value of a named struct type is a struct. -/
def mapFormInputData (m : Mapper) (docFieldVal formFieldVal : GoVal)
    (valErr : ValidationError) (fieldPath : String) : GoVal :=
  let value := m.convertValue docFieldVal
  let error := valErr.MsgFor fieldPath
  match formFieldVal with
  | .vstruct n fs =>
      let fs1 :=
        match Fields.lookup fs "Value" with
        | some v => Fields.set fs "Value" (setString v value)
        | none => fs
      let fs2 :=
        match Fields.lookup fs1 "Error" with
        | some v => Fields.set fs1 "Error" (setString v error)
        | none => fs1
      .vstruct n fs2
  | w => w

mutual
/-- `Mapper.mapStruct`: walk the exported fields of the domain struct
in declaration order, pairing each with the same-named form field.  On
a non-struct argument Go's `NumField` would panic; that arm is
unreachable behind `mapField`'s kind guards and `MapToForm`'s
contract. -/
def mapStruct (m : Mapper) (docVal formVal : GoVal) (valErr : ValidationError)
    (parentPath : String) : GoVal × Option String :=
  match docVal, formVal with
  | .vstruct _ dfields, .vstruct fname ffields =>
      let r := mapStructFields m dfields ffields valErr parentPath
      (.vstruct fname r.1, r.2)
  | _, f => (f, none)
termination_by structural docVal

/-- The field loop of `Mapper.mapStruct`: skip unexported names, the
`"-"` sentinel and fields with no same-named form counterpart; look up
the Override Registry at the field's path before any structural
classification; otherwise dispatch to `mapField`; wrap failures with
the failing path and stop.  (The source's `IsValid`/`CanSet` guard on
the found form field always passes here: the field was found by the
exported doc field's name, and the form struct is reached through the
addressable pointer chain.) -/
def mapStructFields (m : Mapper) (dfields : Fields) (ffields : Fields)
    (valErr : ValidationError) (parentPath : String) : Fields × Option String :=
  match dfields with
  | .nil => (ffields, none)
  | .cons dname dval rest =>
      if !isExported dname then mapStructFields m rest ffields valErr parentPath
      else
        let fieldName := getFieldName dname
        if fieldName = "-" then mapStructFields m rest ffields valErr parentPath
        else
          match Fields.lookup ffields fieldName with
          | none => mapStructFields m rest ffields valErr parentPath
          | some fval =>
              let fieldPath := childPath parentPath fieldName
              match assocLookup m.fieldMappers fieldPath with
              | some mapper =>
                  let r := mapper dval fval fieldPath valErr
                  match r.2 with
                  | some e =>
                      (Fields.set ffields fieldName r.1,
                        some ("custom mapper for field " ++ fieldPath ++ " failed: " ++ e))
                  | none =>
                      mapStructFields m rest (Fields.set ffields fieldName r.1) valErr parentPath
              | none =>
                  let r := mapField m dval fval valErr fieldPath (GoVal.tyOf fval)
                  match r.2 with
                  | some e =>
                      (Fields.set ffields fieldName r.1,
                        some ("mapping field " ++ fieldPath ++ " failed: " ++ e))
                  | none =>
                      mapStructFields m rest (Fields.set ffields fieldName r.1) valErr parentPath
termination_by structural dfields

/-- `Mapper.mapField`: classification of one domain/form field pair.
`formFieldTy` is the *declared* type of the form struct field
(`formField.Type` in the source) and is passed unchanged through the
pointer recursion, exactly as the source passes the `StructField`.
The slice and struct arms inline the bodies of `mapSlice` and
`mapStruct` (see `mapField_slice_eq` and `mapField_struct_eq`). -/
def mapField (m : Mapper) (docFieldVal formFieldVal : GoVal) (valErr : ValidationError)
    (fieldPath : String) (formFieldTy : GoTy) : GoVal × Option String :=
  if formFieldTy.name = "FormInputData" then
    (mapFormInputData m docFieldVal formFieldVal valErr fieldPath, none)
  else
    match docFieldVal, formFieldVal with
    | .vslice _ dElems, .vslice fty fElems =>
        let fElems1 :=
          if fElems.length ≠ dElems.length then zeroElems dElems.length fty else fElems
        let r := mapSliceElems m dElems fElems1 valErr fieldPath 0
        (.vslice fty r.1, r.2)
    | .vstruct _ dfields, .vstruct fn ffields =>
        let r := mapStructFields m dfields ffields valErr fieldPath
        (.vstruct fn r.1, r.2)
    | .vptr _ dp, .vptr fty fp =>
        (match dp with
         | .null => (.vptr fty .null, none)
         | .box dv =>
             let finner :=
               match fp with
               | .null => zeroVal fty
               | .box fv => fv
             let r := mapField m dv finner valErr fieldPath formFieldTy
             (.vptr fty (.box r.1), r.2))
    | _, f => (f, none)
termination_by structural docFieldVal

/-- The element loop of `Mapper.mapSlice`: in increasing index order,
recurse for struct/struct element pairs (propagating the first
failure), leaf-write elements whose own type is named `FormInputData`
(`mapFormInputData` never fails, so the source's error check on it is
dead), and skip every other combination.  The nil-form arm is
unreachable: after the resize the two sequences have equal length. -/
def mapSliceElems (m : Mapper) (dElems : Elems) (fElems : Elems) (valErr : ValidationError)
    (fieldPath : String) (i : Nat) : Elems × Option String :=
  match dElems with
  | .nil => (fElems, none)
  | .cons d ds =>
      match fElems with
      | .nil => (.nil, none)
      | .cons f fs =>
          let indexedPath := indexPath fieldPath i
          if d.kind = GoKind.strct ∧ f.kind = GoKind.strct then
            let r := mapStruct m d f valErr indexedPath
            match r.2 with
            | some e => (.cons r.1 fs, some e)
            | none =>
                let rr := mapSliceElems m ds fs valErr fieldPath (i + 1)
                (.cons r.1 rr.1, rr.2)
          else if f.tyName = "FormInputData" then
            let f1 := mapFormInputData m d f valErr indexedPath
            let rr := mapSliceElems m ds fs valErr fieldPath (i + 1)
            (.cons f1 rr.1, rr.2)
          else
            let rr := mapSliceElems m ds fs valErr fieldPath (i + 1)
            (.cons f rr.1, rr.2)
termination_by structural dElems
end

/-- `Mapper.mapSlice`: resize the form sequence to the domain
sequence's length when they differ (fresh zero-filled slots), then run
the element loop.  On non-slice arguments Go's `Len` would panic;
unreachable behind `mapField`'s kind guards. -/
def mapSlice (m : Mapper) (docSlice formSlice : GoVal) (valErr : ValidationError)
    (fieldPath : String) : GoVal × Option String :=
  match docSlice, formSlice with
  | .vslice _ dElems, .vslice fty fElems =>
      let fElems1 :=
        if fElems.length ≠ dElems.length then zeroElems dElems.length fty else fElems
      let r := mapSliceElems m dElems fElems1 valErr fieldPath 0
      (.vslice fty r.1, r.2)
  | _, f => (f, none)

/-- `Mapper.MapToForm`: validate that both arguments are non-nil
pointers (kind check first, then the nil check, exactly as in the
source), then walk the pointed-to structs with the empty root path.
The mutation of the form happens through the pointer; the model
returns the updated form argument together with the error.  The
source's replacement of a nil `valErr.Errors` map by an empty one is
invisible here: the nil and empty modelled maps agree under
`MsgFor`. -/
def Mapper.MapToForm (m : Mapper) (doc : GoVal) (valErr : ValidationError)
    (formData : GoVal) : GoVal × Option String :=
  if doc.kind ≠ GoKind.ptr ∨ formData.kind ≠ GoKind.ptr then
    (formData, some "doc and formData must be pointers")
  else
    match doc, formData with
    | .vptr _ dp, .vptr fty fp =>
        (match dp, fp with
         | .box dv, .box fv =>
             let r := mapStruct m dv fv valErr ""
             (.vptr fty (.box r.1), r.2)
         | _, _ => (.vptr fty fp, some "doc and formData cannot be nil"))
    | _, f => (f, some "doc and formData must be pointers")

/-- `MapOptions`: per-path simple converters and the (declared but
never consulted) skip list. -/
structure MapOptions where
  FieldConverters : List (String × ValueConverter)
  SkipFields : List String

/-- The override that `MapToFormWithOptions` wraps around a simple
per-path converter: write the converted value and the error message
resolved via `MsgFor(path)`.  Unlike `mapFormInputData`, the source
performs no `IsValid`/`CanSet` guard here, so a missing `Value` or
`Error` field or a non-struct form field would panic in Go; the model
leaves the value unchanged in those unreachable arms. -/
def wrapFieldConverter (converter : ValueConverter) : FieldMapper :=
  fun docField formField path valErr =>
    let value := converter docField
    let errorMsg := valErr.MsgFor path
    match formField with
    | .vstruct n fs =>
        let fs1 :=
          match Fields.lookup fs "Value" with
          | some v => Fields.set fs "Value" (setString v value)
          | none => fs
        let fs2 :=
          match Fields.lookup fs1 "Error" with
          | some v => Fields.set fs1 "Error" (setString v errorMsg)
          | none => fs1
        (.vstruct n fs2, none)
    | w => (w, none)

/-- `Mapper.MapToFormWithOptions`: register every entry of
`opts.FieldConverters` as a field mapper on the mapper instance, then
run `MapToForm`.  In Go the receiver is a pointer, so the
registrations permanently mutate the mapper; the model returns the
mutated mapper alongside the call's result.  (Go iterates the options
map in unspecified order; the model folds over the association list in
list order — for distinct paths the resulting registry is the same.) -/
def Mapper.MapToFormWithOptions (m : Mapper) (doc : GoVal) (valErr : ValidationError)
    (formData : GoVal) (opts : MapOptions) : Mapper × (GoVal × Option String) :=
  let m1 := opts.FieldConverters.foldl
    (fun acc pc => acc.RegisterFieldMapper pc.1 (wrapFieldConverter pc.2)) m
  (m1, m1.MapToForm doc valErr formData)

/-! Convenience accessors used in theorem statements. -/

/-- The field named `n` of the struct a pointer argument points at
(how a caller of `MapToForm` observes the mapped form). -/
def topField (v : GoVal) (n : String) : Option GoVal :=
  match v with
  | .vptr _ (.box (.vstruct _ fs)) => fs.lookup n
  | _ => none

/-- Length of a slice value (zero on other kinds). -/
def sliceLen : GoVal → Nat
  | .vslice _ es => es.length
  | _ => 0

/-! Basic facts about struct-field access. -/

theorem Fields.lookup_set_ne : ∀ (fs : Fields) (n k : String) (w : GoVal), n ≠ k →
    (Fields.set fs n w).lookup k = fs.lookup k
  | .nil, _, _, _, _ => rfl
  | .cons n' v rest, n, k, w, h => by
      simp only [Fields.set]
      by_cases h1 : n' = n
      · subst h1
        simp only [if_pos rfl, Fields.lookup, if_neg h]
      · simp only [if_neg h1, Fields.lookup]
        by_cases h2 : n' = k
        · simp [h2]
        · simp [h2, Fields.lookup_set_ne rest n k w h]

theorem Fields.lookup_set_self : ∀ (fs : Fields) (n : String) (w v0 : GoVal),
    fs.lookup n = some v0 → (Fields.set fs n w).lookup n = some w
  | .nil, n, w, v0, h => by simp [Fields.lookup] at h
  | .cons n' v rest, n, w, v0, h => by
      simp only [Fields.set]
      by_cases h1 : n' = n
      · simp [h1, Fields.lookup]
      · simp only [Fields.lookup, if_neg h1] at h
        simp [Fields.lookup, if_neg h1, Fields.lookup_set_self rest n w v0 h]

theorem Fields.lookup_cons_ne (n k : String) (v : GoVal) (rest : Fields) (h : n ≠ k) :
    (Fields.cons n v rest).lookup k = rest.lookup k := by
  simp [Fields.lookup, h]

/-- C2 — Zero-suppression asymmetry of the conversion function: a nil
pointer converts to the empty string; after unwrapping a present
pointer to its referent, a zero value whose kind is not boolean
converts to the empty string no matter which converters are registered
(the suppression fires before any converter is consulted); a boolean
`false` is not suppressed and converts to `"false"` under the mapper's
built-in converters. -/
theorem claim_C2_zero_suppression (m : Mapper) (e : GoTy) (n : String) (v : GoVal)
    (hk : v.kind ≠ GoKind.bool) (hz : v.isZero = true) :
    m.convertValue (.vptr e .null) = ""
    ∧ m.convertValue v = ""
    ∧ m.convertValue (.vptr e (.box v)) = ""
    ∧ NewMapper.convertValue (.vbool n false) = "false"
    ∧ NewMapper.convertValue (.vptr e (.box (.vbool n false))) = "false" := by
  refine ⟨rfl, ?_, ?_, ?_, ?_⟩
  · cases v with
    | vstr tn s => simp [Mapper.convertValue, GoVal.kind, hz]
    | vint tn i => simp [Mapper.convertValue, GoVal.kind, hz]
    | vbool tn b => exact absurd rfl hk
    | vstruct tn fs => simp [Mapper.convertValue, GoVal.kind, hz]
    | vslice et es => simp [Mapper.convertValue, GoVal.kind, hz]
    | vptr et p =>
        cases p with
        | null => simp [Mapper.convertValue]
        | box w => simp [GoVal.isZero] at hz
  · cases v with
    | vstr tn s => simp [Mapper.convertValue, GoVal.kind, hz]
    | vint tn i => simp [Mapper.convertValue, GoVal.kind, hz]
    | vbool tn b => exact absurd rfl hk
    | vstruct tn fs => simp [Mapper.convertValue, GoVal.kind, hz]
    | vslice et es => simp [Mapper.convertValue, GoVal.kind, hz]
    | vptr et p =>
        cases p with
        | null => simp [Mapper.convertValue, GoVal.kind, hz]
        | box w => simp [GoVal.isZero] at hz
  · by_cases hb : n = "bool"
    · subst hb; rfl
    · simp only [Mapper.convertValue, NewMapper, GoVal.kind, GoVal.isZero, GoVal.tyOf]
      simp [lookupConverter, GoTy.beq, beq_iff_eq, Ne.symm hb, formatBool]
  · by_cases hb : n = "bool"
    · subst hb; rfl
    · simp only [Mapper.convertValue, NewMapper, GoVal.kind, GoVal.isZero, GoVal.tyOf]
      simp [lookupConverter, GoTy.beq, beq_iff_eq, Ne.symm hb, formatBool]

/-- C2 witness: the zero `int` is suppressed even with the built-in
`int` converter registered, the nil pointer and the pointer at the
zero `int` are suppressed, and `false` renders as `"false"`. -/
theorem claim_C2_zero_suppression_witness :
    NewMapper.convertValue (.vptr (.tint "int") .null) = ""
    ∧ NewMapper.convertValue (.vint "int" 0) = ""
    ∧ NewMapper.convertValue (.vptr (.tint "int") (.box (.vint "int" 0))) = ""
    ∧ NewMapper.convertValue (.vbool "bool" false) = "false"
    ∧ NewMapper.convertValue (.vptr (.tint "int") (.box (.vbool "bool" false))) = "false" :=
  claim_C2_zero_suppression NewMapper (.tint "int") "bool" (.vint "int" 0)
    (by decide) (by decide)

/-- C7 — Atomic argument validation: a non-pointer domain or form
argument makes `MapToForm` fail with the pointer-requirement error, and
a nil pointer argument (both being pointers) with the nil error; in
both cases the returned form value is exactly the argument, i.e. the
call performs no mutation (the domain value is read-only throughout
the embedding and is never written by any mapping operation). -/
theorem claim_C7_argument_validation (m : Mapper) (doc form : GoVal)
    (ve : ValidationError) (de fe : GoTy) (dp fp : PtrVal)
    (hkind : doc.kind ≠ GoKind.ptr ∨ form.kind ≠ GoKind.ptr)
    (hnil : dp = PtrVal.null ∨ fp = PtrVal.null) :
    m.MapToForm doc ve form = (form, some "doc and formData must be pointers")
    ∧ m.MapToForm (.vptr de dp) ve (.vptr fe fp)
        = (.vptr fe fp, some "doc and formData cannot be nil") := by
  constructor
  · simp only [Mapper.MapToForm, if_pos hkind]
  · have hk : ¬((GoVal.vptr de dp).kind ≠ GoKind.ptr ∨ (GoVal.vptr fe fp).kind ≠ GoKind.ptr) := by
      simp [GoVal.kind]
    simp only [Mapper.MapToForm, if_neg hk]
    rcases hnil with h | h
    · subst h; rfl
    · subst h
      cases dp <;> rfl

/-- C7 witness: a non-pointer document and a nil form pointer are both
rejected with the respective errors and no mutation. -/
theorem claim_C7_argument_validation_witness :
    NewMapper.MapToForm (.vint "int" 3) ⟨[]⟩ (.vstr "string" "f")
      = (.vstr "string" "f", some "doc and formData must be pointers")
    ∧ NewMapper.MapToForm (.vptr (.tstr "string") (.box (.vstr "string" "d"))) ⟨[]⟩
        (.vptr (.tstr "string") .null)
      = (.vptr (.tstr "string") .null, some "doc and formData cannot be nil") := by
  have h := claim_C7_argument_validation NewMapper (.vint "int" 3) (.vstr "string" "f") ⟨[]⟩
    (.tstr "string") (.tstr "string") (.box (.vstr "string" "d")) .null
    (Or.inl (by decide)) (Or.inr rfl)
  exact h

/-! Concrete values used by several claims: the `FormInputData` leaf
type and helpers building small domain/form trees. -/

/-- The `FormInputData` struct type. -/
def tyFID : GoTy :=
  .tstruct "FormInputData" (.cons "Value" (.tstr "string") (.cons "Error" (.tstr "string") .nil))

/-- A `FormInputData` value with the given `Value` and `Error`. -/
def leafVal (value error : String) : GoVal :=
  .vstruct "FormInputData"
    (.cons "Value" (.vstr "string" value) (.cons "Error" (.vstr "string" error) .nil))

/-- Domain element type with one string field `C`. -/
def tyIt : GoTy := .tstruct "It" (.cons "C" (.tstr "string") .nil)

/-- Domain element with field `C` holding `s`. -/
def itVal (s : String) : GoVal := .vstruct "It" (.cons "C" (.vstr "string" s) .nil)

/-- Form element type with one leaf field `C`. -/
def tyItF : GoTy := .tstruct "ItF" (.cons "C" tyFID .nil)

/-- Form element with leaf field `C`. -/
def itFVal (value error : String) : GoVal := .vstruct "ItF" (.cons "C" (leafVal value error) .nil)

/-- Nested domain `{A: {B: "x"}}` behind the `MapToForm` pointer. -/
def c3DocNested : GoVal :=
  .vptr (.tstruct "D" (.cons "A" (.tstruct "MetaD" (.cons "B" (.tstr "string") .nil)) .nil))
    (.box (.vstruct "D" (.cons "A" (.vstruct "MetaD" (.cons "B" (.vstr "string" "x") .nil)) .nil)))

/-- Matching nested form `{A: {B: FormInputData{}}}`. -/
def c3FormNested : GoVal :=
  .vptr (.tstruct "F" (.cons "A" (.tstruct "MetaF" (.cons "B" tyFID .nil)) .nil))
    (.box (.vstruct "F" (.cons "A" (.vstruct "MetaF" (.cons "B" (leafVal "" "") .nil)) .nil)))

/-- Domain `{Items: [{C:"c0"},{C:"c1"},{C:"c2"}]}` behind the pointer. -/
def c3DocItems : GoVal :=
  .vptr (.tstruct "D" (.cons "Items" (.tslice tyIt) .nil))
    (.box (.vstruct "D"
      (.cons "Items" (.vslice tyIt (.cons (itVal "c0") (.cons (itVal "c1") (.cons (itVal "c2") .nil)))) .nil)))

/-- Matching form with an empty `Items` sequence (resized during the
walk). -/
def c3FormItems : GoVal :=
  .vptr (.tstruct "F" (.cons "Items" (.tslice tyItF) .nil))
    (.box (.vstruct "F" (.cons "Items" (.vslice tyItF .nil) .nil)))

/-- C3 — Path construction: a nested-record field's path is the parent
path, a dot and the field name (bare name at the root); a slice
element's path appends `[i]` to the parent path; and the error lookup
is queried with exactly those strings — mapping the concrete nested
and slice shapes above queries the (arbitrary) error lookup exactly at
`"A.B"` and at `"Items[i].C"`. -/
theorem claim_C3_path_construction (p fn2 : String) (i : Nat) (ve : ValidationError)
    (hp : p ≠ "") :
    childPath "" fn2 = fn2
    ∧ childPath p fn2 = p ++ "." ++ fn2
    ∧ indexPath p i = p ++ "[" ++ toString i ++ "]"
    ∧ childPath "a" "b" = "a.b"
    ∧ indexPath "items" 2 = "items[2]"
    ∧ (NewMapper.MapToForm c3DocNested ve c3FormNested).1
        = .vptr (.tstruct "F" (.cons "A" (.tstruct "MetaF" (.cons "B" tyFID .nil)) .nil))
            (.box (.vstruct "F"
              (.cons "A" (.vstruct "MetaF" (.cons "B" (leafVal "x" (ve.MsgFor "A.B")) .nil)) .nil)))
    ∧ (NewMapper.MapToForm c3DocItems ve c3FormItems).1
        = .vptr (.tstruct "F" (.cons "Items" (.tslice tyItF) .nil))
            (.box (.vstruct "F"
              (.cons "Items" (.vslice tyItF
                (.cons (itFVal "c0" (ve.MsgFor "Items[0].C"))
                  (.cons (itFVal "c1" (ve.MsgFor "Items[1].C"))
                    (.cons (itFVal "c2" (ve.MsgFor "Items[2].C")) .nil)))) .nil))) := by
  refine ⟨by simp [childPath], by simp [childPath, hp], rfl, rfl, rfl, rfl, rfl⟩

/-- C3 witness: the root path of field `b` under parent `a`, and the
nested and slice scenarios at a concrete error lookup. -/
theorem claim_C3_path_construction_witness :
    childPath "" "b" = "b"
    ∧ childPath "a" "b" = "a.b"
    ∧ indexPath "a" 2 = "a[2]"
    ∧ childPath "a" "b" = "a.b"
    ∧ indexPath "items" 2 = "items[2]"
    ∧ (NewMapper.MapToForm c3DocNested ⟨[("A.B", ⟨"required", "", "B"⟩)]⟩ c3FormNested).1
        = .vptr (.tstruct "F" (.cons "A" (.tstruct "MetaF" (.cons "B" tyFID .nil)) .nil))
            (.box (.vstruct "F"
              (.cons "A" (.vstruct "MetaF" (.cons "B"
                (leafVal "x" ((⟨[("A.B", ⟨"required", "", "B"⟩)]⟩ : ValidationError).MsgFor "A.B")) .nil)) .nil)))
    ∧ (NewMapper.MapToForm c3DocItems ⟨[("A.B", ⟨"required", "", "B"⟩)]⟩ c3FormItems).1
        = .vptr (.tstruct "F" (.cons "Items" (.tslice tyItF) .nil))
            (.box (.vstruct "F"
              (.cons "Items" (.vslice tyItF
                (.cons (itFVal "c0" ((⟨[("A.B", ⟨"required", "", "B"⟩)]⟩ : ValidationError).MsgFor "Items[0].C"))
                  (.cons (itFVal "c1" ((⟨[("A.B", ⟨"required", "", "B"⟩)]⟩ : ValidationError).MsgFor "Items[1].C"))
                    (.cons (itFVal "c2" ((⟨[("A.B", ⟨"required", "", "B"⟩)]⟩ : ValidationError).MsgFor "Items[2].C")) .nil)))) .nil))) :=
  claim_C3_path_construction "a" "b" 2 ⟨[("A.B", ⟨"required", "", "B"⟩)]⟩ (by decide)

/-- The element loop never changes the length of the form sequence it
is given. -/
theorem mapSliceElems_length : ∀ (m : Mapper) (ds fs : Elems) (ve : ValidationError)
    (p : String) (i : Nat), ((mapSliceElems m ds fs ve p i).1).length = fs.length
  | _, .nil, _, _, _, _ => rfl
  | _, .cons _ _, .nil, _, _, _ => rfl
  | m, .cons d ds, .cons f fs, ve, p, i => by
      have ih := mapSliceElems_length m ds fs ve p (i + 1)
      simp only [mapSliceElems]
      split
      · split
        · simp [Elems.length]
        · simp [Elems.length, ih]
      · split
        · simp [Elems.length, ih]
        · simp [Elems.length, ih]

/-- `MakeSlice` produces exactly `n` slots. -/
theorem zeroElems_length : ∀ (n : Nat) (t : GoTy), (zeroElems n t).length = n
  | 0, _ => rfl
  | n + 1, t => by
      simp [zeroElems, Elems.length, zeroElems_length n t, Nat.add_comm]

/-- An always-failing override used to observe traversal order. -/
def failMapper (msg : String) : FieldMapper := fun _ f _ _ => (f, some msg)

/-- A mapper with failing overrides under both element paths of `P`. -/
def c4Mapper : Mapper :=
  { converters := []
  , fieldMappers := [("P[0].X", failMapper "e0"), ("P[1].X", failMapper "e1")] }

/-- Domain element type with one string field `X`. -/
def tyIt2 : GoTy := .tstruct "It2" (.cons "X" (.tstr "string") .nil)

/-- Domain element with field `X` holding `s`. -/
def it2Val (s : String) : GoVal := .vstruct "It2" (.cons "X" (.vstr "string" s) .nil)

/-- Form element type with one leaf field `X`. -/
def tyIt2F : GoTy := .tstruct "It2F" (.cons "X" tyFID .nil)

/-- Form element with leaf field `X`. -/
def it2FVal (value error : String) : GoVal :=
  .vstruct "It2F" (.cons "X" (leafVal value error) .nil)

/-- C4 — Slice resize: mapping a domain sequence of length `n` onto a
form sequence always yields a form sequence of length exactly `n`;
when the lengths differ the old form sequence is discarded and the
walk proceeds from a freshly allocated sequence of `n` zero-valued
(for record element types: zero-initialized record) slots, so the
result does not depend on the old elements; when the lengths agree the
existing sequence is kept (a skipped element survives unchanged); and
elements are processed in increasing index order — with overrides
failing under both element paths, the failure reported is the one at
index 0. -/
theorem claim_C4_slice_resize (m : Mapper) (dty fty : GoTy) (dElems fElems : Elems)
    (ve : ValidationError) (path : String) (d2 f : GoVal)
    (hne : fElems.length ≠ dElems.length)
    (hfk : f.kind ≠ GoKind.strct) (hfn : f.tyName ≠ "FormInputData") :
    sliceLen ((mapSlice m (.vslice dty dElems) (.vslice fty fElems) ve path).1) = dElems.length
    ∧ mapSlice m (.vslice dty dElems) (.vslice fty fElems) ve path
        = mapSlice m (.vslice dty dElems) (.vslice fty (zeroElems dElems.length fty)) ve path
    ∧ mapSlice m (.vslice dty (.cons d2 .nil)) (.vslice fty (.cons f .nil)) ve path
        = (.vslice fty (.cons f .nil), none)
    ∧ (mapSlice c4Mapper
        (.vslice tyIt2 (.cons (it2Val "a") (.cons (it2Val "b") .nil)))
        (.vslice tyIt2F (.cons (it2FVal "" "") (.cons (it2FVal "" "") .nil)))
        ve "P").2 = some ("custom mapper for field P[0].X failed: e0") := by
  refine ⟨?_, ?_, ?_, ?_⟩
  · simp only [mapSlice, sliceLen]
    by_cases h : fElems.length ≠ dElems.length
    · simp only [if_pos h, mapSliceElems_length, zeroElems_length]
    · simp only [if_neg h]
      rw [mapSliceElems_length]
      omega
  · simp only [mapSlice, if_pos hne, zeroElems_length]
    simp
  · simp only [mapSlice, Elems.length]
    rw [if_neg (by omega)]
    simp only [mapSliceElems]
    rw [if_neg (fun hc => hfk hc.2)]
    rw [if_neg hfn]
  · rfl

/-- C4 witness: a one-element domain sequence against an empty form
sequence, and a skipped non-record element. -/
theorem claim_C4_slice_resize_witness :
    sliceLen ((mapSlice NewMapper (.vslice (.tstr "string") (.cons (.vstr "string" "t") .nil))
        (.vslice tyFID .nil) ⟨[]⟩ "Tags").1) = (Elems.cons (GoVal.vstr "string" "t") .nil).length
    ∧ mapSlice NewMapper (.vslice (.tstr "string") (.cons (.vstr "string" "t") .nil))
        (.vslice tyFID .nil) ⟨[]⟩ "Tags"
        = mapSlice NewMapper (.vslice (.tstr "string") (.cons (.vstr "string" "t") .nil))
            (.vslice tyFID (zeroElems (Elems.cons (GoVal.vstr "string" "t") .nil).length tyFID)) ⟨[]⟩ "Tags"
    ∧ mapSlice NewMapper (.vslice (.tstr "string") (.cons (.vint "int" 5) .nil))
        (.vslice tyFID (.cons (.vint "int" 7) .nil)) ⟨[]⟩ "Tags"
        = (.vslice tyFID (.cons (.vint "int" 7) .nil), none)
    ∧ (mapSlice c4Mapper
        (.vslice tyIt2 (.cons (it2Val "a") (.cons (it2Val "b") .nil)))
        (.vslice tyIt2F (.cons (it2FVal "" "") (.cons (it2FVal "" "") .nil)))
        ⟨[]⟩ "P").2 = some ("custom mapper for field P[0].X failed: e0") :=
  claim_C4_slice_resize NewMapper (.tstr "string") tyFID
    (.cons (.vstr "string" "t") .nil) .nil ⟨[]⟩ "Tags" (.vint "int" 5) (.vint "int" 7)
    (by decide) (by decide) (by decide)

/-- Frame property of the field walk: a form field whose name either
does not occur among the domain struct's fields or is not exported is
never written — it survives the walk (successful or not) with exactly
its old value. -/
theorem mapStructFields_frame : ∀ (m : Mapper) (dfields ffields : Fields)
    (ve : ValidationError) (p F : String),
    (dfields.lookup F = none ∨ isExported F = false) →
    ((mapStructFields m dfields ffields ve p).1).lookup F = ffields.lookup F
  | _, .nil, _, _, _, _, _ => rfl
  | m, .cons dn dv rest, ffields, ve, p, F, h => by
      have h' : rest.lookup F = none ∨ isExported F = false := by
        rcases h with h | h
        · left
          by_cases he : dn = F
          · subst he; simp [Fields.lookup] at h
          · simpa [Fields.lookup, he] using h
        · right; exact h
      simp only [mapStructFields, getFieldName]
      cases hexp : isExported dn with
      | false =>
          simp only [hexp, Bool.not_false, if_true]
          exact mapStructFields_frame m rest ffields ve p F h'
      | true =>
          have hne : dn ≠ F := by
            rcases h with h | h
            · intro he; subst he; simp [Fields.lookup] at h
            · intro he; subst he; rw [hexp] at h; cases h
          simp only [hexp, Bool.not_true, if_false]
          by_cases hdash : dn = "-"
          · simp only [if_pos hdash]
            exact mapStructFields_frame m rest ffields ve p F h'
          · simp only [if_neg hdash]
            cases hl : Fields.lookup ffields dn with
            | none => exact mapStructFields_frame m rest ffields ve p F h'
            | some fval =>
                cases hmp : assocLookup m.fieldMappers (childPath p dn) with
                | some mapper =>
                    cases hr : (mapper dv fval (childPath p dn) ve).2 with
                    | some e => simp [hr, Fields.lookup_set_ne _ _ _ _ hne]
                    | none =>
                        simp only [hr, Bool.false_eq_true, if_false]
                        rw [mapStructFields_frame m rest _ ve p F h']
                        exact Fields.lookup_set_ne _ _ _ _ hne
                | none =>
                    cases hr : (mapField m dv fval ve (childPath p dn) (GoVal.tyOf fval)).2 with
                    | some e => simp [hr, Fields.lookup_set_ne _ _ _ _ hne]
                    | none =>
                        simp only [hr, Bool.false_eq_true, if_false]
                        rw [mapStructFields_frame m rest _ ve p F h']
                        exact Fields.lookup_set_ne _ _ _ _ hne

/-- C9 — Frame condition of `Map`: with no overrides registered, on a
successful or failed call every form field with no same-named exported
domain counterpart keeps exactly its old value.  (The other half of
the claim — the domain value is never mutated — is structural in this
embedding: the source writes only through form-derived values, so
every modelled operation takes the domain as a read-only input and
returns only the updated form.) -/
theorem claim_C9_frame (m : Mapper) (dty fty : GoTy) (dn fn F : String)
    (dfields ffields : Fields) (ve : ValidationError)
    (hm : m.fieldMappers = [])
    (hF : dfields.lookup F = none ∨ isExported F = false) :
    topField ((m.MapToForm (.vptr dty (.box (.vstruct dn dfields))) ve
        (.vptr fty (.box (.vstruct fn ffields)))).1) F
      = ffields.lookup F := by
  simp only [Mapper.MapToForm]
  rw [if_neg (by simp [GoVal.kind])]
  simp only [mapStruct, topField]
  exact mapStructFields_frame m dfields ffields ve "" F hF

/-- C9 witness: a form field `"Extra"` absent from the domain record
survives a concrete `Map` unchanged. -/
theorem claim_C9_frame_witness :
    topField ((NewMapper.MapToForm
        (.vptr (.tstruct "D" (.cons "Name" (.tstr "string") .nil))
          (.box (.vstruct "D" (.cons "Name" (.vstr "string" "Jo") .nil))))
        ⟨[]⟩
        (.vptr (.tstruct "F" (.cons "Name" tyFID (.cons "Extra" tyFID .nil)))
          (.box (.vstruct "F" (.cons "Name" (leafVal "" "") (.cons "Extra" (leafVal "keep" "kept") .nil)))))).1) "Extra"
      = (Fields.cons "Name" (leafVal "" "") (.cons "Extra" (leafVal "keep" "kept") .nil)).lookup "Extra" :=
  claim_C9_frame NewMapper (.tstruct "D" (.cons "Name" (.tstr "string") .nil))
    (.tstruct "F" (.cons "Name" tyFID (.cons "Extra" tyFID .nil))) "D" "F" "Extra"
    (.cons "Name" (.vstr "string" "Jo") .nil)
    (.cons "Name" (leafVal "" "") (.cons "Extra" (leafVal "keep" "kept") .nil))
    ⟨[]⟩ rfl (Or.inl rfl)

/-- Domain record with a field `P` of pointer-to-string type, pointing
at `"x"`, behind the `MapToForm` pointer. -/
def c5Doc : GoVal :=
  .vptr (.tstruct "D" (.cons "P" (.tptr (.tstr "string")) .nil))
    (.box (.vstruct "D" (.cons "P" (.vptr (.tstr "string") (.box (.vstr "string" "x"))) .nil)))

/-- Matching form record with `P` of pointer-to-`FormInputData` type,
nil before the call. -/
def c5Form : GoVal :=
  .vptr (.tstruct "F" (.cons "P" (.tptr tyFID) .nil))
    (.box (.vstruct "F" (.cons "P" (.vptr tyFID .null) .nil)))

/-- C5 counterexample: for a non-nil domain pointer to `"x"` paired
with a nil form pointer to a Leaf Field, `Map` allocates the zero leaf
and recurses, but the dereferenced Leaf Field is NOT resolved as a
leaf: the call succeeds with the leaf still zero (`Value = ""`),
whereas leaf resolution per the claim would have written
`convert("x") = "x"`. -/
theorem claim_C5_counterexample :
    NewMapper.MapToForm c5Doc ⟨[]⟩ c5Form
      = (.vptr (.tstruct "F" (.cons "P" (.tptr tyFID) .nil))
          (.box (.vstruct "F" (.cons "P" (.vptr tyFID (.box (leafVal "" ""))) .nil))), none)
    ∧ NewMapper.convertValue (.vstr "string" "x") = "x"
    ∧ ("" : String) ≠ "x" :=
  ⟨rfl, rfl, by decide⟩

/-- C5 amended — Pointer semantics: for a pointer/pointer field pair,
a nil domain pointer resets the form pointer to nil without recursing;
a non-nil domain pointer with a nil form pointer allocates a zero
target; the walker then recurses on the dereferenced pair with the
Field Path unchanged — but the recursion classifies only by the value
kinds of the dereferenced pair (slice/slice, struct/struct, ptr/ptr),
carrying the originally declared (pointer) form field type, whose
empty type name never matches the Leaf Field check, so a dereferenced
Leaf Field is not resolved as a leaf: a string/struct dereferenced
pair is silently skipped. -/
theorem claim_C5_pointer_semantics (m : Mapper) (dty fty g : GoTy) (dv fv : GoVal)
    (fp : PtrVal) (ve : ValidationError) (path : String)
    (hd : dv.kind = GoKind.str) (hf : fv.kind = GoKind.strct) :
    mapField m (.vptr dty .null) (.vptr fty fp) ve path (.tptr g) = (.vptr fty .null, none)
    ∧ mapField m (.vptr dty (.box dv)) (.vptr fty .null) ve path (.tptr g)
        = (.vptr fty (.box (mapField m dv (zeroVal fty) ve path (.tptr g)).1),
            (mapField m dv (zeroVal fty) ve path (.tptr g)).2)
    ∧ mapField m (.vptr dty (.box dv)) (.vptr fty (.box fv)) ve path (.tptr g)
        = (.vptr fty (.box (mapField m dv fv ve path (.tptr g)).1),
            (mapField m dv fv ve path (.tptr g)).2)
    ∧ mapField m dv fv ve path (.tptr g) = (fv, none) := by
  refine ⟨rfl, rfl, rfl, ?_⟩
  cases dv <;> cases fv <;> simp [GoVal.kind] at hd hf <;> rfl

/-- C5 witness: the amended pointer semantics at the concrete
string-pointer/leaf-pointer pair of the counterexample. -/
theorem claim_C5_pointer_semantics_witness :
    mapField NewMapper (.vptr (.tstr "string") .null) (.vptr tyFID .null) ⟨[]⟩ "P" (.tptr tyFID)
        = (.vptr tyFID .null, none)
    ∧ mapField NewMapper (.vptr (.tstr "string") (.box (.vstr "string" "x"))) (.vptr tyFID .null)
          ⟨[]⟩ "P" (.tptr tyFID)
        = (.vptr tyFID (.box (mapField NewMapper (.vstr "string" "x") (zeroVal tyFID) ⟨[]⟩ "P" (.tptr tyFID)).1),
            (mapField NewMapper (.vstr "string" "x") (zeroVal tyFID) ⟨[]⟩ "P" (.tptr tyFID)).2)
    ∧ mapField NewMapper (.vptr (.tstr "string") (.box (.vstr "string" "x"))) (.vptr tyFID (.box (leafVal "" "")))
          ⟨[]⟩ "P" (.tptr tyFID)
        = (.vptr tyFID (.box (mapField NewMapper (.vstr "string" "x") (leafVal "" "") ⟨[]⟩ "P" (.tptr tyFID)).1),
            (mapField NewMapper (.vstr "string" "x") (leafVal "" "") ⟨[]⟩ "P" (.tptr tyFID)).2)
    ∧ mapField NewMapper (.vstr "string" "x") (leafVal "" "") ⟨[]⟩ "P" (.tptr tyFID)
        = (leafVal "" "", none) :=
  claim_C5_pointer_semantics NewMapper (.tstr "string") tyFID tyFID
    (.vstr "string" "x") (leafVal "" "") .null ⟨[]⟩ "P" (by decide) (by decide)

/-- A mapper with an always-failing override registered at the slice
element path `"Items[0]"`. -/
def c6Mapper : Mapper :=
  { converters := NewMapper.converters
  , fieldMappers := [("Items[0]", failMapper "boom")] }

/-- Domain `{Items: ["a"]}` behind the `MapToForm` pointer. -/
def c6Doc : GoVal :=
  .vptr (.tstruct "D" (.cons "Items" (.tslice (.tstr "string")) .nil))
    (.box (.vstruct "D"
      (.cons "Items" (.vslice (.tstr "string") (.cons (.vstr "string" "a") .nil)) .nil)))

/-- Matching form with one leaf element in `Items`. -/
def c6Form : GoVal :=
  .vptr (.tstruct "F" (.cons "Items" (.tslice tyFID) .nil))
    (.box (.vstruct "F" (.cons "Items" (.vslice tyFID (.cons (leafVal "" "") .nil)) .nil)))

/-- C6 counterexample: an always-failing override is registered at the
slice-element path `"Items[0]"`, the walker reaches that path (it
leaf-writes the element there), yet the call succeeds and the element
is written by the default leaf handling — the override is never
invoked (had it been invoked in place of default handling, the call
would have failed with `custom mapper for field Items[0] failed:
boom`). -/
theorem claim_C6_counterexample :
    (assocLookup c6Mapper.fieldMappers "Items[0]").isSome = true
    ∧ c6Mapper.MapToForm c6Doc ⟨[]⟩ c6Form
        = (.vptr (.tstruct "F" (.cons "Items" (.tslice tyFID) .nil))
            (.box (.vstruct "F" (.cons "Items" (.vslice tyFID (.cons (leafVal "a" "") .nil)) .nil))),
           none) :=
  ⟨rfl, rfl⟩

/-- C6 amended — Override precedence at record-field paths: when the
walker processes a record field whose path carries a registered
override, the override runs in place of all default structural
handling, whatever the domain field's kind (the written result is the
override's output, independently of the domain value); but slice
traversal never consults the Override Registry at element paths
(`parent[i]`): the element step is insensitive to any override
registered at the element's own path. -/
theorem claim_C6_override_precedence (m : Mapper) (n2 : String) (v fval w : GoVal)
    (rest ffields : Fields) (fm : FieldMapper) (ve : ValidationError) (p : String)
    (cv : List (GoTy × ValueConverter)) (d f : GoVal) (i : Nat)
    (hexp : isExported n2 = true) (hdash : n2 ≠ "-")
    (hform : ffields.lookup n2 = some fval)
    (hmap : assocLookup m.fieldMappers (childPath p n2) = some fm)
    (hfm : fm v fval (childPath p n2) ve = (w, none))
    (hrest : rest.lookup n2 = none)
    (hns : ¬(d.kind = GoKind.strct ∧ f.kind = GoKind.strct)) :
    ((mapStructFields m (.cons n2 v rest) ffields ve p).1).lookup n2 = some w
    ∧ mapSliceElems { converters := cv, fieldMappers := [(indexPath p i, fm)] }
        (.cons d .nil) (.cons f .nil) ve p i
      = mapSliceElems { converters := cv, fieldMappers := [] }
        (.cons d .nil) (.cons f .nil) ve p i := by
  constructor
  · simp only [mapStructFields, getFieldName, hexp, Bool.not_true, if_false,
      if_neg hdash, hform, hmap, hfm, Bool.false_eq_true]
    rw [mapStructFields_frame m rest _ ve p n2 (Or.inl hrest)]
    exact Fields.lookup_set_self ffields n2 w fval hform
  · simp only [mapSliceElems, if_neg hns]
    split <;> rfl

/-- C6 witness: a concrete override at root path `"Name"` replaces the
default handling of an `int` domain field, and a leaf slice element is
mapped identically with and without an override at its element
path. -/
theorem claim_C6_override_precedence_witness :
    ((mapStructFields (Mapper.mk [] [("Name", fun _ _ _ _ => (leafVal "X" "", none))])
        (.cons "Name" (.vint "int" 7) .nil)
        (.cons "Name" (leafVal "" "") .nil) ⟨[]⟩ "").1).lookup "Name" = some (leafVal "X" "")
    ∧ mapSliceElems { converters := [], fieldMappers := [(indexPath "Items" 0, fun _ _ _ _ => (leafVal "X" "", none))] }
        (.cons (.vstr "string" "a") .nil) (.cons (leafVal "" "") .nil) ⟨[]⟩ "Items" 0
      = mapSliceElems { converters := [], fieldMappers := [] }
        (.cons (.vstr "string" "a") .nil) (.cons (leafVal "" "") .nil) ⟨[]⟩ "Items" 0 :=
  claim_C6_override_precedence (Mapper.mk [] [("Name", fun _ _ _ _ => (leafVal "X" "", none))])
    "Name" (.vint "int" 7) (leafVal "" "") (leafVal "X" "")
    .nil (.cons "Name" (leafVal "" "") .nil) (fun _ _ _ _ => (leafVal "X" "", none)) ⟨[]⟩ ""
    [] (.vstr "string" "a") (leafVal "" "") 0
    (by decide) (by decide) rfl rfl rfl rfl
    (by simp [GoVal.kind])

/-- A successful association-list lookup exhibits a member. -/
theorem assocLookup_mem {α : Type} : ∀ (l : List (String × α)) (k : String) (v : α),
    assocLookup l k = some v → (k, v) ∈ l
  | [], _, _, h => by simp [assocLookup] at h
  | (k2, v2) :: rest, k, v, h => by
      simp only [assocLookup] at h
      by_cases hk : k2 = k
      · subst hk
        simp only [if_pos rfl] at h
        have hv := Option.some.inj h
        subst hv
        exact List.mem_cons_self _ _
      · simp only [if_neg hk] at h
        exact List.mem_cons_of_mem _ (assocLookup_mem rest k v h)

/-- When no registered override can fail, no mapping operation can
fail: the only error producer in the traversal is a failing override;
everything else either writes or skips.  Stated over all inputs of
size at most `N` and proved by strong induction on `N`. -/
theorem noMappers_noError (m : Mapper)
    (hm : ∀ (pa : String) (fm : FieldMapper), (pa, fm) ∈ m.fieldMappers →
      ∀ (dv fv : GoVal) (ve : ValidationError), (fm dv fv pa ve).2 = none) : ∀ (N : Nat),
    (∀ (dfields : Fields), sizeOf dfields ≤ N →
        ∀ (ffields : Fields) (ve : ValidationError) (p : String),
        (mapStructFields m dfields ffields ve p).2 = none)
    ∧ (∀ (d : GoVal), sizeOf d ≤ N →
        ∀ (f : GoVal) (ve : ValidationError) (path : String) (t : GoTy),
        (mapField m d f ve path t).2 = none)
    ∧ (∀ (d : GoVal), sizeOf d ≤ N →
        ∀ (f : GoVal) (ve : ValidationError) (p : String),
        (mapStruct m d f ve p).2 = none)
    ∧ (∀ (ds : Elems), sizeOf ds ≤ N →
        ∀ (fs : Elems) (ve : ValidationError) (p : String) (i : Nat),
        (mapSliceElems m ds fs ve p i).2 = none) := by
  intro N
  induction N with
  | zero =>
      refine ⟨?_, ?_, ?_, ?_⟩ <;> intro x hx <;>
        exact absurd hx (by cases x <;> simp <;> omega)
  | succ N ih =>
      obtain ⟨ihSF, ihF, ihS, ihE⟩ := ih
      refine ⟨?_, ?_, ?_, ?_⟩
      · intro dfields hsz ffields ve p
        cases dfields with
        | nil => rfl
        | cons dn dv rest =>
            simp only [Fields.cons.sizeOf_spec] at hsz
            have hdv : sizeOf dv ≤ N := by omega
            have hrest : sizeOf rest ≤ N := by omega
            simp only [mapStructFields, getFieldName]
            cases hexp : isExported dn with
            | false =>
                simp only [hexp, Bool.not_false, if_true]
                exact ihSF rest hrest ffields ve p
            | true =>
                simp only [hexp, Bool.not_true, if_false, Bool.false_eq_true]
                by_cases hdash : dn = "-"
                · simp only [if_pos hdash]
                  exact ihSF rest hrest ffields ve p
                · simp only [if_neg hdash]
                  cases hl : Fields.lookup ffields dn with
                  | none => exact ihSF rest hrest ffields ve p
                  | some fval =>
                      cases hmp : assocLookup m.fieldMappers (childPath p dn) with
                      | some mapper =>
                          have hr := hm (childPath p dn) mapper
                            (assocLookup_mem m.fieldMappers (childPath p dn) mapper hmp)
                            dv fval ve
                          simp only [hr]
                          exact ihSF rest hrest _ ve p
                      | none =>
                          have hmf := ihF dv hdv fval ve (childPath p dn) (GoVal.tyOf fval)
                          simp only [hmf]
                          exact ihSF rest hrest _ ve p
      · intro d hsz f ve path t
        by_cases hn : t.name = "FormInputData"
        · rw [mapField.eq_def]
          simp only [if_pos hn]
        · rw [mapField.eq_def]
          simp only [if_neg hn]
          cases d with
          | vstr a b => cases f <;> rfl
          | vint a b => cases f <;> rfl
          | vbool a b => cases f <;> rfl
          | vslice dty dElems =>
              cases f with
              | vslice fty fElems =>
                  simp only [GoVal.vslice.sizeOf_spec] at hsz
                  exact ihE dElems (by omega) _ ve path 0
              | vstr a b => rfl
              | vint a b => rfl
              | vbool a b => rfl
              | vstruct a b => rfl
              | vptr a b => rfl
          | vstruct dn2 dfs =>
              cases f with
              | vstruct fn2 ffs =>
                  simp only [GoVal.vstruct.sizeOf_spec] at hsz
                  exact ihSF dfs (by omega) ffs ve path
              | vstr a b => rfl
              | vint a b => rfl
              | vbool a b => rfl
              | vslice a b => rfl
              | vptr a b => rfl
          | vptr dty dp =>
              cases f with
              | vptr fty fp =>
                  cases dp with
                  | null => rfl
                  | box dv2 =>
                      simp only [GoVal.vptr.sizeOf_spec, PtrVal.box.sizeOf_spec] at hsz
                      cases fp with
                      | null => exact ihF dv2 (by omega) _ ve path t
                      | box fv2 => exact ihF dv2 (by omega) _ ve path t
              | vstr a b => rfl
              | vint a b => rfl
              | vbool a b => rfl
              | vstruct a b => rfl
              | vslice a b => rfl
      · intro d hsz f ve p
        cases d with
        | vstruct dn2 dfs =>
            cases f with
            | vstruct fn2 ffs =>
                simp only [GoVal.vstruct.sizeOf_spec] at hsz
                simp only [mapStruct]
                exact ihSF dfs (by omega) ffs ve p
            | vstr a b => rfl
            | vint a b => rfl
            | vbool a b => rfl
            | vslice a b => rfl
            | vptr a b => rfl
        | vstr a b => cases f <;> rfl
        | vint a b => cases f <;> rfl
        | vbool a b => cases f <;> rfl
        | vslice a b => cases f <;> rfl
        | vptr a b => cases f <;> rfl
      · intro ds hsz fs ve p i
        cases ds with
        | nil => rfl
        | cons d ds2 =>
            simp only [Elems.cons.sizeOf_spec] at hsz
            have hd : sizeOf d ≤ N := by omega
            have hds : sizeOf ds2 ≤ N := by omega
            cases fs with
            | nil => rfl
            | cons f fs2 =>
                simp only [mapSliceElems]
                by_cases hc : d.kind = GoKind.strct ∧ f.kind = GoKind.strct
                · simp only [if_pos hc]
                  have hstr := ihS d hd f ve (indexPath p i)
                  simp only [hstr]
                  exact ihE ds2 hds fs2 ve p (i + 1)
                · simp only [if_neg hc]
                  by_cases hfn : f.tyName = "FormInputData"
                  · simp only [if_pos hfn]
                    exact ihE ds2 hds fs2 ve p (i + 1)
                  · simp only [if_neg hfn]
                    exact ihE ds2 hds fs2 ve p (i + 1)

/-- Splitting the field walk at a list split: walking `l1 ++ l2` is
walking `l1` and, unless that failed, continuing with `l2` from the
resulting form fields — the first failure ends the walk. -/
theorem mapStructFields_append_split : ∀ (m : Mapper) (l1 l2 ffields : Fields)
    (ve : ValidationError) (p : String),
    mapStructFields m (Fields.append l1 l2) ffields ve p
      = (match (mapStructFields m l1 ffields ve p).2 with
         | some _ => mapStructFields m l1 ffields ve p
         | none => mapStructFields m l2 (mapStructFields m l1 ffields ve p).1 ve p)
  | m, .nil, l2, ffields, ve, p => rfl
  | m, .cons dn dv rest, l2, ffields, ve, p => by
      simp only [Fields.append, mapStructFields, getFieldName]
      cases hexp : isExported dn with
      | false =>
          simp only [hexp, Bool.not_false, if_true]
          exact mapStructFields_append_split m rest l2 ffields ve p
      | true =>
          simp only [hexp, Bool.not_true, if_false, Bool.false_eq_true]
          by_cases hdash : dn = "-"
          · simp only [if_pos hdash]
            exact mapStructFields_append_split m rest l2 ffields ve p
          · simp only [if_neg hdash]
            cases hl : Fields.lookup ffields dn with
            | none => exact mapStructFields_append_split m rest l2 ffields ve p
            | some fval =>
                cases hmp : assocLookup m.fieldMappers (childPath p dn) with
                | some mapper =>
                    cases hr : (mapper dv fval (childPath p dn) ve).2 with
                    | some e => simp [hr]
                    | none =>
                        simp only [hr]
                        exact mapStructFields_append_split m rest l2 _ ve p
                | none =>
                    cases hr : (mapField m dv fval ve (childPath p dn) (GoVal.tyOf fval)).2 with
                    | some e => simp [hr]
                    | none =>
                        simp only [hr]
                        exact mapStructFields_append_split m rest l2 _ ve p

/-- C8 — Fail-fast error propagation: when the walk reaches a field
`F` whose registered override fails with `e` (all fields before `F`
having succeeded, producing form fields `ff1`), `Map` returns the
failure wrapped with the failing Field Path and the form exactly as it
stood at the failure — the fields after `F` are neither visited nor
written; and when no registered override can fail, no failure can
occur on any field and `Map` on valid arguments always succeeds. -/
theorem claim_C8_fail_fast
    (m m0 : Mapper) (dty fty dty0 fty0 : GoTy) (dn fn dn0 fn0 F e : String)
    (pre post ffields ff1 df0 ff0 : Fields) (v fval w : GoVal) (fm : FieldMapper)
    (ve ve0 : ValidationError)
    (hm0 : ∀ (pa : String) (fm0 : FieldMapper), (pa, fm0) ∈ m0.fieldMappers →
      ∀ (dv fv : GoVal) (ve2 : ValidationError), (fm0 dv fv pa ve2).2 = none)
    (hpre : mapStructFields m pre ffields ve "" = (ff1, none))
    (hexp : isExported F = true) (hdash : F ≠ "-")
    (hform : ff1.lookup F = some fval)
    (hmap : assocLookup m.fieldMappers F = some fm)
    (hfm : fm v fval F ve = (w, some e)) :
    m.MapToForm (.vptr dty (.box (.vstruct dn (Fields.append pre (.cons F v post))))) ve
        (.vptr fty (.box (.vstruct fn ffields)))
      = (.vptr fty (.box (.vstruct fn (Fields.set ff1 F w))),
         some ("custom mapper for field " ++ F ++ " failed: " ++ e))
    ∧ (m0.MapToForm (.vptr dty0 (.box (.vstruct dn0 df0))) ve0
        (.vptr fty0 (.box (.vstruct fn0 ff0)))).2 = none := by
  constructor
  · simp only [Mapper.MapToForm]
    rw [if_neg (by simp [GoVal.kind])]
    simp only [mapStruct]
    rw [mapStructFields_append_split]
    simp only [hpre]
    have hcp : childPath "" F = F := rfl
    simp only [mapStructFields, getFieldName, hexp, Bool.not_true, if_false,
      Bool.false_eq_true, if_neg hdash, hform, hcp, hmap, hfm]
  · simp only [Mapper.MapToForm]
    rw [if_neg (by simp [GoVal.kind])]
    simp only [mapStruct]
    exact (noMappers_noError m0 hm0 (sizeOf df0)).1 df0 le_rfl ff0 ve0 ""

/-- C8 witness: a failing override at root field `Name` aborts the
call with the wrapped message and the later field `Later` is left
untouched; with no overrides a concrete call succeeds. -/
theorem claim_C8_fail_fast_witness :
    (Mapper.mk [] [("Name", failMapper "boom")]).MapToForm
        (.vptr (.tstruct "D" .nil) (.box (.vstruct "D"
          (Fields.append .nil (.cons "Name" (.vstr "string" "Jo")
            (.cons "Later" (.vstr "string" "z") .nil))))))
        ⟨[]⟩
        (.vptr (.tstruct "F" .nil) (.box (.vstruct "F"
          (.cons "Name" (leafVal "" "") (.cons "Later" (leafVal "old" "old") .nil)))))
      = (.vptr (.tstruct "F" .nil) (.box (.vstruct "F"
          (Fields.set (.cons "Name" (leafVal "" "") (.cons "Later" (leafVal "old" "old") .nil))
            "Name" (leafVal "" "")))),
         some ("custom mapper for field " ++ "Name" ++ " failed: " ++ "boom"))
    ∧ (NewMapper.MapToForm (.vptr (.tstruct "D" .nil) (.box (.vstruct "D"
          (.cons "Name" (.vstr "string" "Jo") .nil))))
        ⟨[]⟩
        (.vptr (.tstruct "F" .nil) (.box (.vstruct "F" (.cons "Name" (leafVal "" "") .nil))))).2
      = none :=
  claim_C8_fail_fast (Mapper.mk [] [("Name", failMapper "boom")]) NewMapper
    (.tstruct "D" .nil) (.tstruct "F" .nil) (.tstruct "D" .nil) (.tstruct "F" .nil)
    "D" "F" "D" "F" "Name" "boom"
    .nil (.cons "Later" (.vstr "string" "z") .nil)
    (.cons "Name" (leafVal "" "") (.cons "Later" (leafVal "old" "old") .nil))
    (.cons "Name" (leafVal "" "") (.cons "Later" (leafVal "old" "old") .nil))
    (.cons "Name" (.vstr "string" "Jo") .nil)
    (.cons "Name" (leafVal "" "") .nil)
    (.vstr "string" "Jo") (leafVal "" "") (leafVal "" "") (failMapper "boom")
    ⟨[]⟩ ⟨[]⟩ (by intro pa fm0 hmem dv fv ve2; simp [NewMapper] at hmem)
    rfl (by decide) (by decide) rfl rfl rfl

/-- A name occurring zero times among a struct's fields is not found
by lookup. -/
theorem Fields.countName_zero : ∀ (fs : Fields) (F : String),
    fs.countName F = 0 → fs.lookup F = none
  | .nil, _, _ => rfl
  | .cons n v rest, F, h => by
      simp only [Fields.countName] at h
      by_cases hn : n = F
      · simp [hn] at h
      · simp only [if_neg hn, Nat.zero_add] at h
        simp [Fields.lookup, hn, Fields.countName_zero rest F h]

/-- Leaf round-trip through the field walk: if the walk over the
domain fields succeeds, the domain field `F` (occurring exactly once)
is exported and not excluded, its form counterpart is a `FormInputData`
leaf with string `Value` and `Error` fields, and no override is
registered at `F`'s path, then the walked form carries at `F` the leaf
whose `Value` is the Conversion Registry's result on the domain value
and whose `Error` is the error lookup's message for `F`'s path — both
written by the single leaf write. -/
theorem mapStructFields_leaf : ∀ (m : Mapper) (dfields ffields : Fields)
    (ve : ValidationError) (p F : String) (v : GoVal) (lf : Fields) (vn en a b : String),
    isExported F = true → F ≠ "-" →
    dfields.countName F = 1 →
    dfields.lookup F = some v →
    ffields.lookup F = some (.vstruct "FormInputData" lf) →
    lf.lookup "Value" = some (.vstr vn a) →
    lf.lookup "Error" = some (.vstr en b) →
    assocLookup m.fieldMappers (childPath p F) = none →
    (mapStructFields m dfields ffields ve p).2 = none →
    ((mapStructFields m dfields ffields ve p).1).lookup F
      = some (.vstruct "FormInputData"
          (Fields.set (Fields.set lf "Value" (.vstr vn (m.convertValue v)))
            "Error" (.vstr en (ve.MsgFor (childPath p F)))))
  | m, .nil, ffields, ve, p, F, v, lf, vn, en, a, b,
      hexp, hdash, hcount, hlook, hform, hV, hE, hnomap, hok => by
        simp [Fields.lookup] at hlook
  | m, .cons dn dv rest, ffields, ve, p, F, v, lf, vn, en, a, b,
      hexp, hdash, hcount, hlook, hform, hV, hE, hnomap, hok => by
      by_cases hdF : dn = F
      · subst hdF
        have hv : dv = v := by simpa [Fields.lookup] using hlook
        subst hv
        have hrest0 : rest.countName dn = 0 := by
          simp [Fields.countName] at hcount
          omega
        have hrestnone : rest.lookup dn = none := Fields.countName_zero rest dn hrest0
        have hE2 : (Fields.set lf "Value" (GoVal.vstr vn (m.convertValue dv))).lookup "Error"
            = some (.vstr en b) := by
          rw [Fields.lookup_set_ne lf "Value" "Error" _ (by decide)]
          exact hE
        have hleaf : mapField m dv (.vstruct "FormInputData" lf) ve (childPath p dn)
            (GoVal.tyOf (.vstruct "FormInputData" lf))
            = (.vstruct "FormInputData"
                (Fields.set (Fields.set lf "Value" (.vstr vn (m.convertValue dv)))
                  "Error" (.vstr en (ve.MsgFor (childPath p dn)))), none) := by
          rw [mapField.eq_def]
          simp [GoVal.tyOf, GoTy.name, mapFormInputData, hV, hE2, setString]
        simp only [mapStructFields, getFieldName, hexp, Bool.not_true, if_false,
          Bool.false_eq_true, if_neg hdash, hform, hnomap, hleaf]
        rw [mapStructFields_frame m rest _ ve p dn (Or.inl hrestnone)]
        exact Fields.lookup_set_self ffields dn _ _ hform
      · have hcount2 : rest.countName F = 1 := by
          simp only [Fields.countName, if_neg hdF] at hcount
          omega
        have hlook2 : rest.lookup F = some v := by
          simpa [Fields.lookup, hdF] using hlook
        simp only [mapStructFields, getFieldName]
        cases hexp2 : isExported dn with
        | false =>
            simp only [hexp2, Bool.not_false, if_true]
            simp only [mapStructFields, getFieldName, hexp2, Bool.not_false, if_true] at hok
            exact mapStructFields_leaf m rest ffields ve p F v lf vn en a b
              hexp hdash hcount2 hlook2 hform hV hE hnomap hok
        | true =>
            simp only [hexp2, Bool.not_true, if_false, Bool.false_eq_true]
            simp only [mapStructFields, getFieldName, hexp2, Bool.not_true, if_false,
              Bool.false_eq_true] at hok
            by_cases hdash2 : dn = "-"
            · simp only [if_pos hdash2]
              simp only [if_pos hdash2] at hok
              exact mapStructFields_leaf m rest ffields ve p F v lf vn en a b
                hexp hdash hcount2 hlook2 hform hV hE hnomap hok
            · simp only [if_neg hdash2]
              simp only [if_neg hdash2] at hok
              cases hl : Fields.lookup ffields dn with
              | none =>
                  simp only [hl] at hok
                  exact mapStructFields_leaf m rest ffields ve p F v lf vn en a b
                    hexp hdash hcount2 hlook2 hform hV hE hnomap hok
              | some fval =>
                  simp only [hl] at hok
                  have hform2 : ∀ x : GoVal, (Fields.set ffields dn x).lookup F
                      = some (.vstruct "FormInputData" lf) := fun x => by
                    rw [Fields.lookup_set_ne ffields dn F x hdF]
                    exact hform
                  cases hmp : assocLookup m.fieldMappers (childPath p dn) with
                  | some mapper =>
                      simp only [hmp] at hok
                      cases hr : (mapper dv fval (childPath p dn) ve).2 with
                      | some e => simp [hr] at hok
                      | none =>
                          simp only [hr] at hok
                          simp only [hmp, hr]
                          exact mapStructFields_leaf m rest _ ve p F v lf vn en a b
                            hexp hdash hcount2 hlook2 (hform2 _) hV hE hnomap hok
                  | none =>
                      simp only [hmp] at hok
                      cases hr : (mapField m dv fval ve (childPath p dn) (GoVal.tyOf fval)).2 with
                      | some e => simp [hr] at hok
                      | none =>
                          simp only [hr] at hok
                          simp only [hmp, hr]
                          exact mapStructFields_leaf m rest _ ve p F v lf vn en a b
                            hexp hdash hcount2 hlook2 (hform2 _) hV hE hnomap hok

/-- C1 — Leaf round-trip through `MapToForm`: for a domain record
field `F` (declared once, exported, not excluded) whose matching form
field is a `FormInputData` leaf, after a successful `Map` with no
override registered at `F`'s path, the leaf's `Value` is the
Conversion Registry's `convertValue` applied to the domain field's
value and its `Error` is the error lookup's `MsgFor` applied to `F`'s
Field Path (`F` itself at the root), both written together by the
single leaf write of `mapFormInputData`. -/
theorem claim_C1_leaf_round_trip (m : Mapper) (dty fty : GoTy) (dn fn F : String)
    (dfields ffields : Fields) (ve : ValidationError) (v : GoVal) (lf : Fields)
    (vn en a b : String)
    (hexp : isExported F = true) (hdash : F ≠ "-")
    (hcount : dfields.countName F = 1)
    (hlook : dfields.lookup F = some v)
    (hform : ffields.lookup F = some (.vstruct "FormInputData" lf))
    (hV : lf.lookup "Value" = some (.vstr vn a))
    (hE : lf.lookup "Error" = some (.vstr en b))
    (hnomap : assocLookup m.fieldMappers F = none)
    (hok : (m.MapToForm (.vptr dty (.box (.vstruct dn dfields))) ve
        (.vptr fty (.box (.vstruct fn ffields)))).2 = none) :
    topField ((m.MapToForm (.vptr dty (.box (.vstruct dn dfields))) ve
        (.vptr fty (.box (.vstruct fn ffields)))).1) F
      = some (.vstruct "FormInputData"
          (Fields.set (Fields.set lf "Value" (.vstr vn (m.convertValue v)))
            "Error" (.vstr en (ve.MsgFor F)))) := by
  have hroot : childPath "" F = F := rfl
  simp only [Mapper.MapToForm] at hok ⊢
  rw [if_neg (by simp [GoVal.kind])] at hok ⊢
  simp only [mapStruct, topField] at hok ⊢
  have := mapStructFields_leaf m dfields ffields ve "" F v lf vn en a b
    hexp hdash hcount hlook hform hV hE (by rw [hroot]; exact hnomap) hok
  rw [hroot] at this
  exact this

/-- C1 witness: the `Name` field of the basic scenario — value
`"Jo"`, a `min=3` validation failure — round-trips to
`Value = "Jo"`, `Error = "Minimum length is 3"`. -/
theorem claim_C1_leaf_round_trip_witness :
    topField ((NewMapper.MapToForm
        (.vptr (.tstruct "D" (.cons "Name" (.tstr "string") .nil))
          (.box (.vstruct "D" (.cons "Name" (.vstr "string" "Jo") .nil))))
        ⟨[("Name", ⟨"min", "3", "Name"⟩)]⟩
        (.vptr (.tstruct "F" (.cons "Name" tyFID .nil))
          (.box (.vstruct "F" (.cons "Name" (leafVal "" "") .nil))))).1) "Name"
      = some (.vstruct "FormInputData"
          (Fields.set (Fields.set
              (.cons "Value" (.vstr "string" "") (.cons "Error" (.vstr "string" "") .nil))
              "Value" (.vstr "string" (NewMapper.convertValue (.vstr "string" "Jo"))))
            "Error" (.vstr "string"
              ((⟨[("Name", ⟨"min", "3", "Name"⟩)]⟩ : ValidationError).MsgFor "Name")))) :=
  claim_C1_leaf_round_trip NewMapper
    (.tstruct "D" (.cons "Name" (.tstr "string") .nil))
    (.tstruct "F" (.cons "Name" tyFID .nil)) "D" "F" "Name"
    (.cons "Name" (.vstr "string" "Jo") .nil)
    (.cons "Name" (leafVal "" "") .nil)
    ⟨[("Name", ⟨"min", "3", "Name"⟩)]⟩
    (.vstr "string" "Jo")
    (.cons "Value" (.vstr "string" "") (.cons "Error" (.vstr "string" "") .nil))
    "string" "string" "" ""
    (by decide) (by decide) (by decide) rfl rfl rfl rfl rfl rfl

/-- Number of bindings for a key in a string-keyed association list
(Go maps have at most one). -/
def pathCount {α : Type} : List (String × α) → String → Nat
  | [], _ => 0
  | (k, _) :: rest, q => (if k = q then 1 else 0) + pathCount rest q

theorem assocLookup_mapInsert_self {α : Type} : ∀ (l : List (String × α)) (k : String) (v : α),
    assocLookup (mapInsert l k v) k = some v
  | [], k, v => by simp [mapInsert, assocLookup]
  | (k', v') :: rest, k, v => by
      simp only [mapInsert]
      by_cases h : k' = k
      · simp [h, assocLookup]
      · simp [assocLookup, h, assocLookup_mapInsert_self rest k v]

theorem assocLookup_mapInsert_ne {α : Type} : ∀ (l : List (String × α)) (k q : String) (v : α),
    k ≠ q → assocLookup (mapInsert l k v) q = assocLookup l q
  | [], k, q, v, h => by simp [mapInsert, assocLookup, h]
  | (k', v') :: rest, k, q, v, h => by
      simp only [mapInsert]
      by_cases h2 : k' = k
      · subst h2
        simp [assocLookup, h]
      · simp only [if_neg h2, assocLookup]
        by_cases h3 : k' = q
        · simp [h3]
        · simp [h3, assocLookup_mapInsert_ne rest k q v h]

/-- The registration fold of `MapToFormWithOptions`. -/
def registerAll (m : Mapper) (fcs : List (String × ValueConverter)) : Mapper :=
  fcs.foldl (fun acc pc => acc.RegisterFieldMapper pc.1 (wrapFieldConverter pc.2)) m

theorem registerAll_cons (m : Mapper) (k : String) (c : ValueConverter)
    (rest : List (String × ValueConverter)) :
    registerAll m ((k, c) :: rest)
      = registerAll (m.RegisterFieldMapper k (wrapFieldConverter c)) rest := rfl

theorem registerAll_preserve : ∀ (fcs : List (String × ValueConverter)) (m : Mapper) (q : String),
    pathCount fcs q = 0 →
    assocLookup (registerAll m fcs).fieldMappers q = assocLookup m.fieldMappers q
  | [], _, _, _ => rfl
  | (k, c) :: rest, m, q, h => by
      simp only [pathCount] at h
      by_cases hk : k = q
      · simp [hk] at h
      · simp only [if_neg hk, Nat.zero_add] at h
        rw [registerAll_cons, registerAll_preserve rest _ q h]
        exact assocLookup_mapInsert_ne m.fieldMappers k q (wrapFieldConverter c) hk

theorem registerAll_lookup : ∀ (fcs : List (String × ValueConverter)) (m : Mapper)
    (p : String) (c : ValueConverter),
    pathCount fcs p = 1 → assocLookup fcs p = some c →
    assocLookup (registerAll m fcs).fieldMappers p = some (wrapFieldConverter c)
  | [], _, _, _, h1, h2 => by simp [assocLookup] at h2
  | (k, c2) :: rest, m, p, c, h1, h2 => by
      simp only [pathCount] at h1
      simp only [assocLookup] at h2
      by_cases hk : k = p
      · have hc : c2 = c := by simpa [if_pos hk] using h2
        subst hc
        subst hk
        simp at h1
        have hr0 : pathCount rest k = 0 := by omega
        rw [registerAll_cons, registerAll_preserve rest _ k hr0]
        exact assocLookup_mapInsert_self m.fieldMappers k (wrapFieldConverter c2)
      · simp only [if_neg hk, Nat.zero_add] at h1
        simp only [if_neg hk] at h2
        exact registerAll_lookup rest _ p c h1 h2

theorem registerAll_converters : ∀ (fcs : List (String × ValueConverter)) (m : Mapper),
    (registerAll m fcs).converters = m.converters
  | [], _ => rfl
  | (k, c) :: rest, m => registerAll_converters rest _

/-- A concrete per-path converter always producing `"X"`. -/
def c10Conv : ValueConverter := fun _ => "X"

/-- Options registering `c10Conv` at path `"Name"`. -/
def c10Opts : MapOptions := ⟨[("Name", c10Conv)], []⟩

/-- Domain `{Name: "Jo"}` behind the pointer. -/
def c10Doc : GoVal :=
  .vptr (.tstruct "D" (.cons "Name" (.tstr "string") .nil))
    (.box (.vstruct "D" (.cons "Name" (.vstr "string" "Jo") .nil)))

/-- Matching form with a leaf `Name`. -/
def c10Form : GoVal :=
  .vptr (.tstruct "F" (.cons "Name" tyFID .nil))
    (.box (.vstruct "F" (.cons "Name" (leafVal "" "") .nil)))

/-- C10 — `MapToFormWithOptions` permanently mutates the mapper's
override registry: every entry of `opts.FieldConverters` is registered
(wrapped) on the mapper before mapping, and the wrapped converter is
still registered on the returned mapper afterwards; paths not in the
options keep their previous registration (nothing is removed) and the
converter registry is untouched; the mapping itself already runs on
the mutated mapper; and a subsequent `MapToForm` on the returned
mapper maps the overridden path through the wrapped converter, which
writes the converted value and the `MsgFor`-resolved error. -/
theorem claim_C10_registry_mutation (m : Mapper) (doc form : GoVal)
    (ve : ValidationError) (opts : MapOptions) (p q : String) (c : ValueConverter)
    (hq : pathCount opts.FieldConverters q = 0)
    (hp1 : pathCount opts.FieldConverters p = 1)
    (hpc : assocLookup opts.FieldConverters p = some c) :
    assocLookup ((m.MapToFormWithOptions doc ve form opts).1).fieldMappers p
        = some (wrapFieldConverter c)
    ∧ assocLookup ((m.MapToFormWithOptions doc ve form opts).1).fieldMappers q
        = assocLookup m.fieldMappers q
    ∧ ((m.MapToFormWithOptions doc ve form opts).1).converters = m.converters
    ∧ (m.MapToFormWithOptions doc ve form opts).2
        = ((m.MapToFormWithOptions doc ve form opts).1).MapToForm doc ve form
    ∧ ((NewMapper.MapToFormWithOptions c10Doc ⟨[]⟩ c10Form c10Opts).1).MapToForm
          c10Doc ⟨[]⟩ c10Form
        = (.vptr (.tstruct "F" (.cons "Name" tyFID .nil))
            (.box (.vstruct "F" (.cons "Name" (leafVal "X" "") .nil))), none) := by
  refine ⟨?_, ?_, ?_, rfl, rfl⟩
  · exact registerAll_lookup opts.FieldConverters m p c hp1 hpc
  · exact registerAll_preserve opts.FieldConverters m q hq
  · exact registerAll_converters opts.FieldConverters m

/-- C10 witness: the concrete options register the wrapped converter
under `"Name"`, leave `"Other"` and the converter registry untouched,
and the returned mapper keeps mapping `Name` through it. -/
theorem claim_C10_registry_mutation_witness :
    assocLookup ((NewMapper.MapToFormWithOptions c10Doc ⟨[]⟩ c10Form c10Opts).1).fieldMappers "Name"
        = some (wrapFieldConverter c10Conv)
    ∧ assocLookup ((NewMapper.MapToFormWithOptions c10Doc ⟨[]⟩ c10Form c10Opts).1).fieldMappers "Other"
        = assocLookup NewMapper.fieldMappers "Other"
    ∧ ((NewMapper.MapToFormWithOptions c10Doc ⟨[]⟩ c10Form c10Opts).1).converters = NewMapper.converters
    ∧ (NewMapper.MapToFormWithOptions c10Doc ⟨[]⟩ c10Form c10Opts).2
        = ((NewMapper.MapToFormWithOptions c10Doc ⟨[]⟩ c10Form c10Opts).1).MapToForm c10Doc ⟨[]⟩ c10Form
    ∧ ((NewMapper.MapToFormWithOptions c10Doc ⟨[]⟩ c10Form c10Opts).1).MapToForm
          c10Doc ⟨[]⟩ c10Form
        = (.vptr (.tstruct "F" (.cons "Name" tyFID .nil))
            (.box (.vstruct "F" (.cons "Name" (leafVal "X" "") .nil))), none) :=
  claim_C10_registry_mutation NewMapper c10Doc c10Form ⟨[]⟩ c10Opts "Name" "Other" c10Conv
    (by decide) (by decide) rfl

end Formmap
